import Mathlib

/-!
# Melee at Sea — verification of the combat-and-movement engine

Shallow embedding of the game's core (ship geometry, movement/rotation
legality, fire zones, broadside resolution, game-over check, AI scoring)
translated from the JavaScript sources:
`web/js/ship.js`, `web/js/combat.js`, `web/js/board.js`, `web/js/ai.js`,
`web/js/constants.js`, `web/js/game.js`.

Grid coordinates are integers; ships are identified by their index in the
`allShips` list (JS reference equality `ship === this` becomes index
equality).  Mutation of ship objects becomes explicit list updates via
`List.set`.
-/

namespace MeleeAtSea

/-- A grid cell `{x, y}`. -/
structure Cell where
  x : Int
  y : Int
deriving DecidableEq, Repr, Inhabited

/-- The board: `cols × rows` integer bounds (from `board.js`). -/
structure Board where
  cols : Int
  rows : Int
deriving DecidableEq, Repr

/-- `Board.isValidCell(gridX, gridY)` from `board.js`:
`gridX >= 0 && gridX < this.cols && gridY >= 0 && gridY < this.rows`. -/
def Board.isValidCell (b : Board) (x y : Int) : Bool :=
  decide (0 ≤ x ∧ x < b.cols ∧ 0 ≤ y ∧ y < b.rows)

/-- The two teams (`'player'` / `'enemy'`). -/
inductive Team where
  | player
  | enemy
deriving DecidableEq, Repr

/-- The ship entity (`ship.js`).  `orientation` is in degrees
(0 = up, 90 = right, 180 = down, 270 = left); `cannonsPerSide` is the
remaining cannon capacity (the ship's hit points). -/
structure Ship where
  x : Int
  y : Int
  length : Nat
  orientation : Int
  team : Team
  cannonsPerSide : Nat
  hasMoved : Bool
  hasFired : Bool
deriving DecidableEq, Repr

instance : Inhabited Ship := ⟨⟨0, 0, 0, 0, Team.player, 0, false, false⟩⟩

/-- `DIRECTION_VECTORS` from `constants.js` (UP = (0,-1), RIGHT = (1,0),
DOWN = (0,1), LEFT = (-1,0)); orientations outside the four legal values
never occur at runtime (the lookup is undefined in JS) and are mapped to
the zero vector. -/
def directionVector (o : Int) : Int × Int :=
  if o = 0 then (0, -1)
  else if o = 90 then (1, 0)
  else if o = 180 then (0, 1)
  else if o = 270 then (-1, 0)
  else (0, 0)

/-- The orientation values that actually occur (`UP/RIGHT/DOWN/LEFT`). -/
def legalOrientation (o : Int) : Prop :=
  o = 0 ∨ o = 90 ∨ o = 180 ∨ o = 270

instance (o : Int) : Decidable (legalOrientation o) := by
  unfold legalOrientation; infer_instance

/-- The cell of segment `i` of a ship: the ship extends backwards from the
bow, `cellX = this.x - dir.dx * i`, `cellY = this.y - dir.dy * i`. -/
def Ship.cellAt (s : Ship) (i : Nat) : Cell :=
  ⟨s.x - (directionVector s.orientation).1 * i,
   s.y - (directionVector s.orientation).2 * i⟩

/-- `Ship.getCells()`: the `length` occupied cells, bow first. -/
def Ship.getCells (s : Ship) : List Cell :=
  (List.range s.length).map s.cellAt

/-- `Ship.getCellsAt(newX, newY, newOrientation)`: the cells the ship would
occupy at another pose. -/
def Ship.getCellsAt (s : Ship) (newX newY : Int) (newOrientation : Int) : List Cell :=
  (List.range s.length).map fun i : Nat =>
    ⟨newX - (directionVector newOrientation).1 * (i : Int),
     newY - (directionVector newOrientation).2 * (i : Int)⟩

/-- `Ship.isAlive`: `cannonsPerSide > 0`. -/
def Ship.isAlive (s : Ship) : Bool :=
  decide (0 < s.cannonsPerSide)

/-- `Ship.takeDamage(amount)`: capacity is decremented, floored at 0
(`Math.max(0, ...)` = truncated `Nat` subtraction); returns
`(destroyed, updated ship)`. -/
def Ship.takeDamage (s : Ship) (amount : Nat) : Bool × Ship :=
  let s' := { s with cannonsPerSide := s.cannonsPerSide - amount }
  (decide (s'.cannonsPerSide ≤ 0), s')

/-- One step of the imperative dedup-accumulate pattern shared by
`getFireZones` and `getSideFireZones`: push the candidate cell iff it is
on the board and not already present. -/
def addCell (b : Board) (acc : List Cell) (c : Cell) : List Cell :=
  if b.isValidCell c.x c.y then
    if c ∈ acc then acc else acc ++ [c]
  else acc

/-- `Ship.getFireZones(maxRange)`: the wide lateral threat zone used only
for AI scoring — up to `maxRange` cells laterally from every occupied
cell, deduplicated and clipped to the board.  Perpendicular directions:
`[(1,0),(-1,0)]` for a vertical ship, `[(0,1),(0,-1)]` otherwise. -/
def Ship.getFireZones (b : Board) (s : Ship) (maxRange : Nat) : List Cell :=
  let shipCells := s.getCells
  let perpDirs : List (Int × Int) :=
    if s.orientation = 0 ∨ s.orientation = 180 then [(1, 0), (-1, 0)]
    else [(0, 1), (0, -1)]
  let candidates := shipCells.flatMap fun cell =>
    perpDirs.flatMap fun pdir =>
      (List.range maxRange).map fun k =>
        (⟨cell.x + pdir.1 * ((k : Int) + 1), cell.y + pdir.2 * ((k : Int) + 1)⟩ : Cell)
  candidates.foldl (addCell b) []

/-- `Combat.getSideFireZones(ship)` from `combat.js`: the narrow firing
zone.  Only body segments `1 .. min(cannonsPerSide, length-1)` fire (the
bow, index 0, is skipped, and so is every index beyond `cannonCount`);
each firing segment contributes its single neighbour in each lateral
direction, clipped to the board and deduplicated. -/
def Combat.getSideFireZones (b : Board) (s : Ship) : List Cell :=
  let shipCells := s.getCells
  let sideOffsets : List (Int × Int) :=
    if s.orientation = 0 ∨ s.orientation = 180 then [(-1, 0), (1, 0)]
    else [(0, -1), (0, 1)]
  let bodySegments := shipCells.length - 1
  let cannonCount := min s.cannonsPerSide bodySegments
  let candidates := (List.range shipCells.length).flatMap fun i =>
    if i = 0 then []
    else if i > cannonCount then []
    else
      sideOffsets.map fun offset =>
        (⟨(shipCells.getD i default).x + offset.1,
          (shipCells.getD i default).y + offset.2⟩ : Cell)
  candidates.foldl (addCell b) []

/-- `Ship.canOccupy(cells, allShips)`: every cell is on the board, and no
cell collides with any *other living* ship's occupied cells.  The JS
reference comparison `ship === this` becomes comparison of the index `i`
of the acting ship within `ships`. -/
def Ship.canOccupy (b : Board) (ships : List Ship) (i : Nat) (cells : List Cell) : Bool :=
  cells.all (fun c => b.isValidCell c.x c.y) &&
  (List.range ships.length).all fun j =>
    if j = i then true
    else if ¬ (ships.getD j default).isAlive then true
    else
      cells.all fun c =>
        (ships.getD j default).getCells.all fun other =>
          decide (¬ (c.x = other.x ∧ c.y = other.y))

/-- Movement direction argument of `Ship.move`. -/
inductive MoveDir where
  | forward
  | backward
deriving DecidableEq, Repr

/-- Rotation direction argument of `Ship.rotate`. -/
inductive RotDir where
  | cw
  | ccw
deriving DecidableEq, Repr

/-- `Ship.move(direction, allShips)`: candidate bow = current bow plus
(forward) or minus (backward) the orientation's unit vector; mutates the
bow iff the shifted cell set passes `canOccupy`, otherwise a silent no-op
returning false. -/
def Ship.move (b : Board) (ships : List Ship) (i : Nat) (direction : MoveDir) :
    Bool × List Ship :=
  let s := ships.getD i default
  let dir := directionVector s.orientation
  let dx := match direction with | .forward => dir.1 | .backward => -dir.1
  let dy := match direction with | .forward => dir.2 | .backward => -dir.2
  let newX := s.x + dx
  let newY := s.y + dy
  if Ship.canOccupy b ships i (s.getCellsAt newX newY s.orientation) then
    (true, ships.set i { s with x := newX, y := newY })
  else
    (false, ships)

/-- `Ship.rotate(direction, allShips)`: candidate orientation =
`(o + 90) % 360` (cw) or `(o - 90 + 360) % 360` (ccw); mutates the
orientation iff the rotated cell set (same bow) passes `canOccupy`.
`nextOrientation` is the candidate-orientation arithmetic. -/
def nextOrientation (direction : RotDir) (o : Int) : Int :=
  match direction with
  | .cw => (o + 90) % 360
  | .ccw => (o - 90 + 360) % 360

/-- `Ship.rotate(direction, allShips)`: see `nextOrientation`; mutates the
orientation iff the rotated cell set (same bow) passes `canOccupy`,
otherwise a silent no-op returning false. -/
def Ship.rotate (b : Board) (ships : List Ship) (i : Nat) (direction : RotDir) :
    Bool × List Ship :=
  let s := ships.getD i default
  let newOrientation := nextOrientation direction s.orientation
  if Ship.canOccupy b ships i (s.getCellsAt s.x s.y newOrientation) then
    (true, ships.set i { s with orientation := newOrientation })
  else
    (false, ships)

/-- `Combat.getTargetsInRange(attacker, allShips)`: every other-team
living ship with at least one occupied cell inside the attacker's narrow
fire zones, in `allShips` order, paired with its list of matched cells
(each cell at most once, mirroring the `break` in the JS inner loop). -/
def Combat.getTargetsInRange (b : Board) (ships : List Ship) (i : Nat) :
    List (Nat × List Cell) :=
  let fireZones := Combat.getSideFireZones b (ships.getD i default)
  (List.range ships.length).filterMap fun j =>
    let s := ships.getD j default
    if j = i then none
    else if s.team = (ships.getD i default).team then none
    else if ¬ s.isAlive then none
    else
      let hitCells := s.getCells.filter (fun c => decide (c ∈ fireZones))
      if hitCells.isEmpty then none else some (j, hitCells)

/-- `Combat.fire(attacker, targetCell, allShips)`: single-cell fire.
Returns `(hitShip?, destroyed)` and the updated fleet; a no-op with a
null hit when the cell is outside the attacker's fire zone or no living
enemy occupies it. -/
def Combat.fire (b : Board) (ships : List Ship) (i : Nat) (targetCell : Cell) :
    (Option Nat × Bool) × List Ship :=
  let fireZones := Combat.getSideFireZones b (ships.getD i default)
  if targetCell ∈ fireZones then
    let hit := (List.range ships.length).find? fun j =>
      decide (j ≠ i ∧ (ships.getD j default).team ≠ (ships.getD i default).team ∧
        (ships.getD j default).isAlive = true ∧ targetCell ∈ (ships.getD j default).getCells)
    match hit with
    | some j =>
        let r := (ships.getD j default).takeDamage 1
        ((some j, r.1), ships.set j r.2)
    | none => ((none, false), ships)
  else
    ((none, false), ships)

/-- The damage loop of `Combat.fireBroadside`: each target in order takes
one `takeDamage(1)` and contributes one `(ship, destroyed)` entry. -/
def Combat.broadsideFold (ts : List (Nat × List Cell))
    (st : List (Nat × Bool) × List Ship) : List (Nat × Bool) × List Ship :=
  ts.foldl
    (fun acc t =>
      let r := (acc.2.getD t.1 default).takeDamage 1
      (acc.1 ++ [(t.1, r.1)], acc.2.set t.1 r.2))
    st

/-- `Combat.fireBroadside(attacker, allShips)`: empty no-op when the
attacker has no cannons; otherwise each target from `getTargetsInRange`
takes one `takeDamage(1)` and contributes one `(ship, destroyed)` entry. -/
def Combat.fireBroadside (b : Board) (ships : List Ship) (i : Nat) :
    List (Nat × Bool) × List Ship :=
  if (ships.getD i default).cannonsPerSide ≤ 0 then
    ([], ships)
  else
    Combat.broadsideFold (Combat.getTargetsInRange b ships i) ([], ships)

/-- A candidate action tried by `AI.findBestMove` (the `moves` array in
`ai.js`). -/
inductive MoveAction where
  | move (d : MoveDir)
  | rotate (d : RotDir)
deriving DecidableEq, Repr

/-- The four candidate actions, in their declaration order in `ai.js`
(before shuffling). -/
def movesBase : List MoveAction :=
  [.move .forward, .move .backward, .rotate .cw, .rotate .ccw]

/-- Dispatch a candidate action to `Ship.move` / `Ship.rotate`. -/
def applyAction (b : Board) (ships : List Ship) (i : Nat) : MoveAction → Bool × List Ship
  | .move d => Ship.move b ships i d
  | .rotate d => Ship.rotate b ships i d

/-- `AI.evaluatePosition(ship, playerShips, allShips)`: position score —
`+10` per matched cell of each target in range, `-5` per coincidence of
an own occupied cell with a cell of a living player ship's wide
(`maxRange = 3`) fire zone, `+max(0, 10 - manhattan bow distance)` per
living player ship.  `playerIdx` lists the indices of the player's ships
inside `ships`. -/
def AI.evaluatePosition (b : Board) (ships : List Ship) (i : Nat) (playerIdx : List Nat) :
    Int :=
  let targets := Combat.getTargetsInRange b ships i
  let score1 : Int := targets.foldl (fun sc t => sc + (t.2.length : Int) * 10) 0
  let me := ships.getD i default
  let myCells := me.getCells
  let score2 : Int := playerIdx.foldl
    (fun sc p =>
      let ps := ships.getD p default
      if ps.isAlive then
        let zones := Ship.getFireZones b ps 3
        myCells.foldl
          (fun sc2 c =>
            zones.foldl (fun sc3 z => if c.x = z.x ∧ c.y = z.y then sc3 - 5 else sc3) sc2)
          sc
      else sc)
    score1
  let score3 : Int := playerIdx.foldl
    (fun sc p =>
      let ps := ships.getD p default
      if ps.isAlive then
        let dist : Int := (me.x - ps.x).natAbs + (me.y - ps.y).natAbs
        sc + max 0 (10 - dist)
      else sc)
    score2
  score3

/-- One iteration of `AI.findBestMove(ship, playerShips, allShips)`'s
trial loop: save `(x, y, orientation)`, trial-apply the candidate
action; on success score the new position with `evaluatePosition` and
keep the best strictly-improving score; always restore the saved fields
afterwards. -/
def AI.findBestMoveStep (b : Board) (i : Nat) (playerIdx : List Nat)
    (st : Int × Option MoveAction × List Ship) (mv : MoveAction) :
    Int × Option MoveAction × List Ship :=
  let bestScore := st.1
  let bestMove := st.2.1
  let cur := st.2.2
  let s := cur.getD i default
  let oldX := s.x
  let oldY := s.y
  let oldOrientation := s.orientation
  let r := applyAction b cur i mv
  if r.1 then
    let score := AI.evaluatePosition b r.2 i playerIdx
    let restored := r.2.set i
      { r.2.getD i default with x := oldX, y := oldY, orientation := oldOrientation }
    if score > bestScore then (score, some mv, restored)
    else (bestScore, bestMove, restored)
  else
    let restored := r.2.set i
      { r.2.getD i default with x := oldX, y := oldY, orientation := oldOrientation }
    (bestScore, bestMove, restored)

/-- `AI.findBestMove` proper: fold the trial step over the shuffled
candidate list, starting from best score `-1` and no chosen move. -/
def AI.findBestMove (b : Board) (ships : List Ship) (i : Nat) (playerIdx : List Nat)
    (moves : List MoveAction) : Option MoveAction × List Ship :=
  let final := moves.foldl (AI.findBestMoveStep b i playerIdx) (-1, none, ships)
  (final.2.1, final.2.2)

/-- The action the AI commits for its chosen ship. -/
inductive AIAction where
  | fire
  | act (mv : MoveAction)
deriving DecidableEq, Repr

/-- Randomness oracle abstracting `Math.random` in `ai.js`: the order the
alive ships are scanned in (`shuffle(aliveShips)`), the candidate-action
order per `findBestMove` call (`shuffle(moves)`, keyed by a call
counter), and the fallback random pick. -/
structure AIOracle where
  shuffleShips : List Nat → List Nat
  shuffleMoves : Nat → List MoveAction → List MoveAction
  pickIdx : Nat → Nat

/-- `AI.takeTurn(enemyShips, playerShips, allShips)`: returns the action
log and the updated fleet.  Empty-handed early return when the AI side
has no living ship; otherwise scan the shuffled living ships for the
best-priority candidate (fire beats move), fall back to a random ship's
best move, and commit exactly one action. -/
def AI.takeTurn (b : Board) (orc : AIOracle) (enemyIdx playerIdx : List Nat)
    (ships : List Ship) : List String × List Ship :=
  let aliveShips := enemyIdx.filter fun j => (ships.getD j default).isAlive
  if aliveShips.isEmpty then ([], ships)
  else
    let shuffled := orc.shuffleShips aliveShips
    let scan := shuffled.foldl
      (fun (st : Int × Option (Nat × AIAction) × List Ship × Nat) j =>
        let bestPriority := st.1
        let best := st.2.1
        let cur := st.2.2.1
        let k := st.2.2.2
        let targets := Combat.getTargetsInRange b cur j
        if ¬ targets.isEmpty then
          if bestPriority < 2 then (2, some (j, AIAction.fire), cur, k)
          else (bestPriority, best, cur, k)
        else
          let fm := AI.findBestMove b cur j playerIdx (orc.shuffleMoves k movesBase)
          match fm.1 with
          | some mv =>
              if bestPriority < 1 then (1, some (j, AIAction.act mv), fm.2, k + 1)
              else (bestPriority, best, fm.2, k + 1)
          | none => (bestPriority, best, fm.2, k + 1))
      (-1, none, ships, 0)
    let afterScan :=
      match scan.2.1 with
      | some chosen => (some chosen, scan.2.2.1)
      | none =>
          let j := shuffled.getD (orc.pickIdx shuffled.length) 0
          let fm := AI.findBestMove b scan.2.2.1 j playerIdx
            (orc.shuffleMoves scan.2.2.2 movesBase)
          match fm.1 with
          | some mv => (some (j, AIAction.act mv), fm.2)
          | none => (none, fm.2)
    match afterScan.1 with
    | none => ([], afterScan.2)
    | some (j, AIAction.fire) =>
        let r := Combat.fireBroadside b afterScan.2 j
        let cur2 := r.2.set j { r.2.getD j default with hasFired := true }
        if ¬ r.1.isEmpty then
          let hitNames := r.1.map fun h =>
            if h.2 then "destroyed a ship" else "hit a ship"
          (["Enemy fired: " ++ String.intercalate ", " hitNames ++ "!"], cur2)
        else
          (["Enemy ship fired but missed!"], cur2)
    | some (j, AIAction.act (.move d)) =>
        let r := Ship.move b afterScan.2 j d
        if r.1 then
          (["Enemy ship advanced"], r.2.set j { r.2.getD j default with hasMoved := true })
        else ([], r.2)
    | some (j, AIAction.act (.rotate d)) =>
        let r := Ship.rotate b afterScan.2 j d
        if r.1 then
          (["Enemy ship maneuvered"], r.2.set j { r.2.getD j default with hasMoved := true })
        else ([], r.2)

/-- The game phases (`GameState` in `constants.js`). -/
inductive GameState where
  | title
  | playerSelect
  | playerMove
  | playerFire
  | enemyTurn
  | player2Select
  | player2Move
  | player2Fire
  | gameOver
deriving DecidableEq, Repr

/-- The slice of `game.js`'s `Game` state that `checkGameOver` touches. -/
structure Game where
  playerShips : List Ship
  enemyShips : List Ship
  state : GameState
  playerWon : Bool
deriving DecidableEq, Repr

/-- `Game.checkGameOver()`: if the enemy side has no living ship the
player wins; otherwise, if the player side has no living ship the player
loses; otherwise the game continues and nothing changes. -/
def Game.checkGameOver (g : Game) : Bool × Game :=
  let playerAlive := g.playerShips.any Ship.isAlive
  let enemyAlive := g.enemyShips.any Ship.isAlive
  if ¬ enemyAlive then
    (true, { g with state := GameState.gameOver, playerWon := true })
  else if ¬ playerAlive then
    (true, { g with state := GameState.gameOver, playerWon := false })
  else
    (false, g)

/-! ### Specification-side comparators and fixtures -/

/-- The two cells laterally adjacent to segment `i` of a ship, as the
spec words it: the `±X` neighbours for a vertical ship (orientation up or
down), the `±Y` neighbours for a horizontal one. -/
def lateralNeighbors (s : Ship) (i : Nat) : List Cell :=
  if s.orientation = 0 ∨ s.orientation = 180 then
    [⟨(s.cellAt i).x - 1, (s.cellAt i).y⟩, ⟨(s.cellAt i).x + 1, (s.cellAt i).y⟩]
  else
    [⟨(s.cellAt i).x, (s.cellAt i).y - 1⟩, ⟨(s.cellAt i).x, (s.cellAt i).y + 1⟩]

/-- The target predicate of a broadside, as the spec words it: a living
other-team ship with at least one occupied cell inside the attacker's
narrow fire zones. -/
def isBroadsideTarget (b : Board) (ships : List Ship) (i j : Nat) : Prop :=
  j ≠ i ∧
  (ships.getD j default).team ≠ (ships.getD i default).team ∧
  (ships.getD j default).isAlive = true ∧
  ∃ c ∈ (ships.getD j default).getCells,
    c ∈ Combat.getSideFireZones b (ships.getD i default)

instance (b : Board) (ships : List Ship) (i j : Nat) :
    Decidable (isBroadsideTarget b ships i j) := by
  unfold isBroadsideTarget; infer_instance

/-- The position score as claim C5 words it: `+10` per enemy cell
threatened, `-5` per own occupied cell lying inside *some* living
player ship's wide (`maxRange = 3`) threat zone — counting each such
cell once — and `+max(0, 10 - manhattan)` per living player ship. -/
def evalPositionClaim (b : Board) (ships : List Ship) (i : Nat) (playerIdx : List Nat) :
    Int :=
  let zones := Combat.getSideFireZones b (ships.getD i default)
  let me := ships.getD i default
  10 * (((List.range ships.length).map fun j =>
      if j ≠ i ∧ (ships.getD j default).team ≠ me.team ∧
          (ships.getD j default).isAlive = true then
        ((ships.getD j default).getCells.countP fun c => decide (c ∈ zones))
      else 0).sum : Int)
  - 5 * ((me.getCells.countP fun c =>
      playerIdx.any fun p =>
        (ships.getD p default).isAlive &&
          decide (c ∈ Ship.getFireZones b (ships.getD p default) 3)) : Int)
  + (playerIdx.map fun p =>
      if (ships.getD p default).isAlive = true then
        max 0 (10 - (((me.x - (ships.getD p default).x).natAbs : Int) +
          ((me.y - (ships.getD p default).y).natAbs : Int)))
      else 0).sum

/-- The position score with the penalty counted per (living player ship,
own cell) pair — the corrected reading of claim C5, matching the nested
loops of `evaluatePosition`. -/
def evalPositionPairs (b : Board) (ships : List Ship) (i : Nat) (playerIdx : List Nat) :
    Int :=
  let zones := Combat.getSideFireZones b (ships.getD i default)
  let me := ships.getD i default
  10 * ((List.range ships.length).map fun j =>
      if j ≠ i ∧ (ships.getD j default).team ≠ me.team ∧
          (ships.getD j default).isAlive = true then
        (((ships.getD j default).getCells.countP fun c => decide (c ∈ zones)) : Int)
      else 0).sum
  - 5 * (playerIdx.map fun p =>
      if (ships.getD p default).isAlive = true then
        ((me.getCells.countP fun c =>
          decide (c ∈ Ship.getFireZones b (ships.getD p default) 3)) : Int)
      else 0).sum
  + (playerIdx.map fun p =>
      if (ships.getD p default).isAlive = true then
        max 0 (10 - (((me.x - (ships.getD p default).x).natAbs : Int) +
          ((me.y - (ships.getD p default).y).natAbs : Int)))
      else 0).sum

/-- The reachable-state invariant of the spec: every living ship's
occupied cells are on the board, and the occupied-cell sets of any two
distinct living ships are disjoint. -/
def StateInvariant (b : Board) (ships : List Ship) : Prop :=
  (∀ i, i < ships.length → (ships.getD i default).isAlive = true →
    ∀ c ∈ (ships.getD i default).getCells, b.isValidCell c.x c.y = true) ∧
  (∀ i, i < ships.length → ∀ j, j < ships.length → i ≠ j →
    (ships.getD i default).isAlive = true → (ships.getD j default).isAlive = true →
    ∀ c ∈ (ships.getD i default).getCells, c ∉ (ships.getD j default).getCells)

instance (b : Board) (ships : List Ship) : Decidable (StateInvariant b ships) := by
  unfold StateInvariant
  haveI d2 : Decidable (∀ i, i < ships.length → ∀ j, j < ships.length → i ≠ j →
      (ships.getD i default).isAlive = true → (ships.getD j default).isAlive = true →
      ∀ c ∈ (ships.getD i default).getCells, c ∉ (ships.getD j default).getCells) := by
    refine @Nat.decidableBallLT _ _ fun i hi => ?_
    refine @Nat.decidableBallLT _ _ fun j hj => ?_
    infer_instance
  infer_instance

/-- One atomic state change of a match: a (possibly failing) move or
rotation, a single-cell shot, or a broadside, each by an arbitrary ship
index. -/
inductive GameStep (b : Board) : List Ship → List Ship → Prop where
  | move (ships : List Ship) (i : Nat) (d : MoveDir) :
      GameStep b ships (Ship.move b ships i d).2
  | rot (ships : List Ship) (i : Nat) (d : RotDir) :
      GameStep b ships (Ship.rotate b ships i d).2
  | shot (ships : List Ship) (i : Nat) (c : Cell) :
      GameStep b ships (Combat.fire b ships i c).2
  | broadside (ships : List Ship) (i : Nat) :
      GameStep b ships (Combat.fireBroadside b ships i).2

/-- Reachability from an initial placement by any sequence of game
steps. -/
def ReachableFrom (b : Board) (init s : List Ship) : Prop :=
  Relation.ReflTransGen (GameStep b) init s

/-- The standard 20×15 board (`GRID_COLS`, `GRID_ROWS`). -/
def boardStd : Board := ⟨20, 15⟩

/-- Scenario ship of C2: length 3, bow (5,5), facing right, capacity 2. -/
def shipScenario : Ship := ⟨5, 5, 3, 90, Team.player, 2, false, false⟩

/-- C3/C6 fixture: the scenario attacker plus an enemy ship whose two
cells (3,4) and (4,4) both lie inside the attacker's narrow fire zone. -/
def fleetBroadside : List Ship :=
  [⟨5, 5, 3, 90, Team.player, 2, false, false⟩,
   ⟨3, 4, 2, 270, Team.enemy, 1, false, false⟩]

/-- C6 fixture: same geometry, but the attacker has no cannons left. -/
def fleetNoCannons : List Ship :=
  [⟨5, 5, 3, 90, Team.player, 0, false, false⟩,
   ⟨3, 4, 2, 270, Team.enemy, 1, false, false⟩]

/-- C5 counterexample fleet: the AI ship's bow cell (5,5) lies inside the
wide threat zones of *both* player ships. -/
def fleetDoubleThreat : List Ship :=
  [⟨5, 5, 2, 90, Team.enemy, 1, false, false⟩,
   ⟨2, 5, 2, 0, Team.player, 1, false, false⟩,
   ⟨8, 5, 2, 0, Team.player, 1, false, false⟩]

/-- C7 counterexample fleet: rotating ship 0 clockwise succeeds once
(up → right) and is then blocked by ship 1 at (5,4). -/
def fleetBlockedTurn : List Ship :=
  [⟨5, 5, 2, 0, Team.player, 1, false, false⟩,
   ⟨5, 4, 2, 270, Team.enemy, 1, false, false⟩]

/-- C7 witness fleet: a single free ship; all four rotations succeed. -/
def fleetFreeTurn : List Ship := [⟨5, 5, 2, 0, Team.player, 1, false, false⟩]

/-- C8 counterexample fleet: the ship starts with its stern cell (-1,5)
off the board, so the forward move succeeds but the backward move is
rejected. -/
def fleetOffBoard : List Ship := [⟨0, 5, 2, 90, Team.player, 1, false, false⟩]

/-- C8 witness fleet: a legally placed ship in open water. -/
def fleetOpenWater : List Ship := [⟨5, 5, 2, 90, Team.player, 1, false, false⟩]

/-- C1 witness fleet: a valid two-ship initial placement. -/
def fleetInitial : List Ship :=
  [⟨1, 5, 2, 90, Team.player, 1, false, false⟩,
   ⟨18, 5, 2, 270, Team.enemy, 1, false, false⟩]

/-- C4 witness game: every enemy ship is at capacity 0. -/
def gameEnemyDead : Game :=
  ⟨[⟨2, 5, 2, 90, Team.player, 1, false, false⟩],
   [⟨18, 5, 2, 270, Team.enemy, 0, false, false⟩],
   GameState.playerFire, false⟩

/-- A trivial randomness oracle for concrete instances. -/
def oracleId : AIOracle := ⟨id, fun _ ms => ms, fun _ => 0⟩

/-! ## Helper lemmas -/

/-- Membership in the dedup-accumulate fold. -/
theorem mem_foldl_addCell (b : Board) :
    ∀ (cs acc : List Cell) (c : Cell),
      c ∈ cs.foldl (addCell b) acc ↔ c ∈ acc ∨ (c ∈ cs ∧ b.isValidCell c.x c.y = true) := by
  intro cs
  induction cs with
  | nil => simp
  | cons d cs ih =>
    intro acc c
    simp only [List.foldl_cons, ih, List.mem_cons]
    unfold addCell
    by_cases hv : b.isValidCell d.x d.y = true
    · simp only [hv, if_true]
      by_cases hd : d ∈ acc
      · simp only [hd, if_true]
        constructor
        · rintro (h | h)
          · exact Or.inl h
          · exact Or.inr ⟨Or.inr h.1, h.2⟩
        · rintro (h | ⟨(rfl | h), hval⟩)
          · exact Or.inl h
          · exact Or.inl hd
          · exact Or.inr ⟨h, hval⟩
      · simp only [hd, if_false, List.mem_append, List.mem_singleton]
        constructor
        · rintro ((h | rfl) | h)
          · exact Or.inl h
          · exact Or.inr ⟨Or.inl rfl, hv⟩
          · exact Or.inr ⟨Or.inr h.1, h.2⟩
        · rintro (h | ⟨(rfl | h), hval⟩)
          · exact Or.inl (Or.inl h)
          · exact Or.inl (Or.inr rfl)
          · exact Or.inr ⟨h, hval⟩
    · simp only [hv, if_false]
      constructor
      · rintro (h | h)
        · exact Or.inl h
        · exact Or.inr ⟨Or.inr h.1, h.2⟩
      · rintro (h | ⟨(rfl | h), hval⟩)
        · exact Or.inl h
        · exact absurd hval hv
        · exact Or.inr ⟨h, hval⟩

/-- The dedup-accumulate fold never introduces duplicates. -/
theorem nodup_foldl_addCell (b : Board) :
    ∀ (cs acc : List Cell), acc.Nodup → (cs.foldl (addCell b) acc).Nodup := by
  intro cs
  induction cs with
  | nil => intro acc h; simpa using h
  | cons d cs ih =>
    intro acc h
    simp only [List.foldl_cons]
    apply ih
    unfold addCell
    by_cases hv : b.isValidCell d.x d.y = true
    · simp only [hv, if_true]
      by_cases hd : d ∈ acc
      · simpa [hd] using h
      · simp only [hd, if_false]
        simpa [List.nodup_append] using ⟨h, hd⟩
    · simpa [hv] using h

theorem getD_set_self {α : Type} [Inhabited α] (l : List α) (i : Nat) (a : α)
    (h : i < l.length) : (l.set i a).getD i default = a := by
  simp [List.getD_eq_getElem?_getD, List.getElem?_set_self h]

theorem getD_set_of_ne {α : Type} [Inhabited α] (l : List α) {i j : Nat} (h : i ≠ j)
    (a : α) : (l.set i a).getD j default = l.getD j default := by
  simp [List.getD_eq_getElem?_getD, List.getElem?_set_ne h]

theorem set_getD_self {α : Type} [Inhabited α] (l : List α) (i : Nat)
    (h : i < l.length) : l.set i (l.getD i default) = l := by
  apply List.ext_getElem?
  intro j
  by_cases hij : i = j
  · subst hij
    rw [List.getElem?_set_self h, List.getD_eq_getElem?_getD, List.getElem?_eq_getElem h]
    rfl
  · exact List.getElem?_set_ne hij

/-- `getCells` indexes to `cellAt`. -/
theorem getCells_getD (s : Ship) (i : Nat) (h : i < s.length) :
    s.getCells.getD i default = s.cellAt i := by
  simp [Ship.getCells, List.getD_eq_getElem?_getD, List.getElem?_map, List.getElem?_range h]

theorem getCells_length (s : Ship) : s.getCells.length = s.length := by
  simp [Ship.getCells]

theorem getCellsAt_self (s : Ship) :
    s.getCellsAt s.x s.y s.orientation = s.getCells := by
  unfold Ship.getCellsAt Ship.getCells Ship.cellAt
  rfl

/-! ## Claim C6 -/

/-- C6: for every attacker with `cannonCapacity ≤ 0`, `fireBroadside`
returns the empty list and changes no ship's state; failure is reported
by the empty result value (the operation is total, never an error). -/
theorem claim_C6_broadside_no_cannons (b : Board) (ships : List Ship) (i : Nat)
    (h : (ships.getD i default).cannonsPerSide ≤ 0) :
    Combat.fireBroadside b ships i = ([], ships) := by
  unfold Combat.fireBroadside
  rw [if_pos h]

/-- C6 witness: the concrete zero-cannon attacker of `fleetNoCannons`
fires an empty broadside that leaves the fleet untouched. -/
theorem claim_C6_witness :
    Combat.fireBroadside boardStd fleetNoCannons 0 = ([], fleetNoCannons) :=
  claim_C6_broadside_no_cannons boardStd fleetNoCannons 0 (by decide)

/-! ## Claim C4 -/

/-- C4: `checkGameOver` returns true exactly when some side has zero
living ships; zero living enemies marks the player the winner, zero
living player ships (with a living enemy) marks the player the loser,
and with both sides alive it returns false and changes nothing (in
particular the state is not set to GameOver). -/
theorem claim_C4_check_game_over (g : Game) :
    ((Game.checkGameOver g).1 = true ↔
      (g.enemyShips.any Ship.isAlive = false ∨ g.playerShips.any Ship.isAlive = false)) ∧
    (g.enemyShips.any Ship.isAlive = false →
      (Game.checkGameOver g).2.state = GameState.gameOver ∧
      (Game.checkGameOver g).2.playerWon = true) ∧
    (g.enemyShips.any Ship.isAlive = true → g.playerShips.any Ship.isAlive = false →
      (Game.checkGameOver g).1 = true ∧
      (Game.checkGameOver g).2.state = GameState.gameOver ∧
      (Game.checkGameOver g).2.playerWon = false) ∧
    (g.enemyShips.any Ship.isAlive = true → g.playerShips.any Ship.isAlive = true →
      Game.checkGameOver g = (false, g)) := by
  unfold Game.checkGameOver
  cases he : g.enemyShips.any Ship.isAlive <;>
    cases hp : g.playerShips.any Ship.isAlive <;> simp

/-- C4 witness: in `gameEnemyDead` every enemy ship is at capacity 0, and
`checkGameOver` returns true with the player marked the winner. -/
theorem claim_C4_witness :
    (Game.checkGameOver gameEnemyDead).1 = true ∧
    (Game.checkGameOver gameEnemyDead).2.state = GameState.gameOver ∧
    (Game.checkGameOver gameEnemyDead).2.playerWon = true :=
  ⟨(claim_C4_check_game_over gameEnemyDead).1.mpr (Or.inl (by decide)),
   ((claim_C4_check_game_over gameEnemyDead).2.1 (by decide)).1,
   ((claim_C4_check_game_over gameEnemyDead).2.1 (by decide)).2⟩

/-! ## Claim C10 -/

/-- C10: when the AI side has no living ship (every ship of `enemyIdx`
has capacity 0), `takeTurn` returns an empty action list and leaves the
whole fleet — positions, orientations, capacities and per-turn flags —
unchanged, for any randomness. -/
theorem claim_C10_take_turn_no_alive (b : Board) (orc : AIOracle)
    (enemyIdx playerIdx : List Nat) (ships : List Ship)
    (h : ∀ j ∈ enemyIdx, (ships.getD j default).isAlive = false) :
    AI.takeTurn b orc enemyIdx playerIdx ships = ([], ships) := by
  unfold AI.takeTurn
  have hnil : enemyIdx.filter (fun j => (ships.getD j default).isAlive) = [] := by
    rw [List.filter_eq_nil_iff]
    intro a ha
    rw [h a ha]
    simp
  rw [hnil]
  simp

/-- C10 witness: a concrete dead AI fleet yields no actions and no state
change. -/
theorem claim_C10_witness :
    AI.takeTurn boardStd oracleId [1] [0] fleetNoCannons.reverse =
      ([], fleetNoCannons.reverse) :=
  claim_C10_take_turn_no_alive boardStd oracleId [1] [0] fleetNoCannons.reverse
    (by decide)

/-! ## Claim C9 -/

theorem ship_eta (s : Ship) :
    ({ x := s.x, y := s.y, length := s.length, orientation := s.orientation,
       team := s.team, cannonsPerSide := s.cannonsPerSide,
       hasMoved := s.hasMoved, hasFired := s.hasFired } : Ship) = s := by
  cases s
  rfl

/-- Restoring `(x, y, orientation)` from `g` on a ship that agrees with
`g` on every other field yields `g` itself. -/
theorem ship_restore (g a : Ship) (h1 : a.length = g.length) (h2 : a.team = g.team)
    (h3 : a.cannonsPerSide = g.cannonsPerSide) (h4 : a.hasMoved = g.hasMoved)
    (h5 : a.hasFired = g.hasFired) :
    ({ a with x := g.x, y := g.y, orientation := g.orientation } : Ship) = g := by
  cases a
  cases g
  simp only at h1 h2 h3 h4 h5
  subst h1
  subst h2
  subst h3
  subst h4
  subst h5
  rfl

theorem applyAction_move (b : Board) (ships : List Ship) (i : Nat) (d : MoveDir) :
    applyAction b ships i (MoveAction.move d) = Ship.move b ships i d := rfl

theorem applyAction_rot (b : Board) (ships : List Ship) (i : Nat) (d : RotDir) :
    applyAction b ships i (MoveAction.rotate d) = Ship.rotate b ships i d := rfl

/-- Whatever a move attempt does, the fleet it returns is either
unchanged or the acting ship with a new bow position. -/
theorem move_cases (b : Board) (ships : List Ship) (i : Nat) (d : MoveDir) :
    (Ship.move b ships i d).2 = ships ∨
    ∃ nx ny : Int, (Ship.move b ships i d).2 =
      ships.set i { ships.getD i default with x := nx, y := ny } := by
  cases d <;>
  · simp only [Ship.move]
    split
    · right
      exact ⟨_, _, rfl⟩
    · left
      rfl

/-- Whatever a rotation attempt does, the fleet it returns is either
unchanged or the acting ship with a new orientation. -/
theorem rotate_cases (b : Board) (ships : List Ship) (i : Nat) (d : RotDir) :
    (Ship.rotate b ships i d).2 = ships ∨
    ∃ o : Int, (Ship.rotate b ships i d).2 =
      ships.set i { ships.getD i default with orientation := o } := by
  cases d <;>
  · simp only [Ship.rotate]
    split
    · right
      exact ⟨_, rfl⟩
    · left
      rfl

/-- Trial-applying a candidate action and then restoring the saved
`(x, y, orientation)` of the acting ship is the identity on the fleet. -/
theorem applyAction_restore (b : Board) (ships : List Ship) (i : Nat) (mv : MoveAction) :
    (applyAction b ships i mv).2.set i
      { (applyAction b ships i mv).2.getD i default with
        x := (ships.getD i default).x, y := (ships.getD i default).y,
        orientation := (ships.getD i default).orientation } = ships := by
  by_cases hi : i < ships.length
  · have hcase : (applyAction b ships i mv).2 = ships ∨
        ∃ a : Ship, (applyAction b ships i mv).2 = ships.set i a ∧
          a.length = (ships.getD i default).length ∧
          a.team = (ships.getD i default).team ∧
          a.cannonsPerSide = (ships.getD i default).cannonsPerSide ∧
          a.hasMoved = (ships.getD i default).hasMoved ∧
          a.hasFired = (ships.getD i default).hasFired := by
      cases mv with
      | move d =>
          rw [applyAction_move]
          rcases move_cases b ships i d with h | ⟨nx, ny, h⟩
          · exact Or.inl h
          · exact Or.inr ⟨_, h, rfl, rfl, rfl, rfl, rfl⟩
      | rotate d =>
          rw [applyAction_rot]
          rcases rotate_cases b ships i d with h | ⟨o, h⟩
          · exact Or.inl h
          · exact Or.inr ⟨_, h, rfl, rfl, rfl, rfl, rfl⟩
    rcases hcase with h | ⟨a, h, h1, h2, h3, h4, h5⟩
    · rw [h, ship_restore (ships.getD i default) (ships.getD i default) rfl rfl rfl rfl rfl,
        set_getD_self _ _ hi]
    · rw [h, getD_set_self _ _ _ hi, List.set_set,
        ship_restore (ships.getD i default) a h1 h2 h3 h4 h5, set_getD_self _ _ hi]
  · have hle : ships.length ≤ i := Nat.le_of_not_lt hi
    have h2 : (applyAction b ships i mv).2 = ships := by
      cases mv with
      | move d =>
          rw [applyAction_move]
          rcases move_cases b ships i d with h | ⟨nx, ny, h⟩
          · exact h
          · rw [h]
            exact List.set_eq_of_length_le hle
      | rotate d =>
          rw [applyAction_rot]
          rcases rotate_cases b ships i d with h | ⟨o, h⟩
          · exact h
          · rw [h]
            exact List.set_eq_of_length_le hle
    rw [h2]
    exact List.set_eq_of_length_le hle

theorem findBestMoveStep_frame (b : Board) (i : Nat) (playerIdx : List Nat)
    (st : Int × Option MoveAction × List Ship) (mv : MoveAction) :
    (AI.findBestMoveStep b i playerIdx st mv).2.2 = st.2.2 := by
  unfold AI.findBestMoveStep
  by_cases hr : (applyAction b st.2.2 i mv).1 = true
  · simp only [hr, if_true]
    split
    · exact applyAction_restore b st.2.2 i mv
    · exact applyAction_restore b st.2.2 i mv
  · simp only [Bool.not_eq_true] at hr
    simp only [hr, Bool.false_eq_true, if_false]
    exact applyAction_restore b st.2.2 i mv

/-- C9: `findBestMove` is free of side effects on the fleet — after all
trial moves and rotations are rolled back, the returned fleet equals the
input fleet exactly (in particular the acting ship's `(x, y,
orientation)` are their pre-call values), for every candidate order. -/
theorem claim_C9_find_best_move_frame (b : Board) (ships : List Ship) (i : Nat)
    (playerIdx : List Nat) (moves : List MoveAction) :
    (AI.findBestMove b ships i playerIdx moves).2 = ships := by
  unfold AI.findBestMove
  suffices h : ∀ st : Int × Option MoveAction × List Ship,
      (moves.foldl (AI.findBestMoveStep b i playerIdx) st).2.2 = st.2.2 by
    simpa using h (-1, none, ships)
  induction moves with
  | nil => intro st; rfl
  | cons mv moves ih =>
      intro st
      rw [List.foldl_cons, ih, findBestMoveStep_frame]

/-! ## Claims C7 and C8 -/

theorem all_congr_mem {α : Type} (l : List α) (f g : α → Bool)
    (h : ∀ x ∈ l, f x = g x) : l.all f = l.all g := by
  induction l with
  | nil => rfl
  | cons a l ih =>
      simp only [List.all_cons]
      rw [h a (by simp), ih fun x hx => h x (by simp [hx])]

/-- `canOccupy` ignores the acting ship's own slot, so updating it does
not change the verdict. -/
theorem canOccupy_set_self (b : Board) (ships : List Ship) (i : Nat) (a : Ship)
    (cells : List Cell) :
    Ship.canOccupy b (ships.set i a) i cells = Ship.canOccupy b ships i cells := by
  unfold Ship.canOccupy
  rw [List.length_set]
  congr 1
  apply all_congr_mem
  intro j hj
  by_cases hji : j = i
  · simp [hji]
  · have hij : i ≠ j := fun h => hji h.symm
    rw [getD_set_of_ne _ hij]

theorem rotate_success (b : Board) (ships : List Ship) (i : Nat) (d : RotDir)
    (l : List Ship) (h : Ship.rotate b ships i d = (true, l)) :
    l = ships.set i ({ ships.getD i default with
      orientation := nextOrientation d (ships.getD i default).orientation } : Ship) := by
  simp only [Ship.rotate] at h
  split at h
  · simp only [Prod.mk.injEq] at h
    exact h.2.symm
  · simp at h

theorem rotate_success_chain (b : Board) (ships : List Ship) (i : Nat) (d : RotDir)
    (a : Ship) (l l' : List Ship) (hi : i < ships.length) (hl : l = ships.set i a)
    (h : Ship.rotate b l i d = (true, l')) :
    l' = ships.set i ({ a with orientation := nextOrientation d a.orientation } : Ship) := by
  have e := rotate_success b l i d l' h
  subst hl
  rw [getD_set_self _ _ _ hi] at e
  rw [e, List.set_set]

/-- Four equal 90° steps return any legal orientation to itself. -/
theorem rotate4 (d : RotDir) (o : Int) (ho : legalOrientation o) :
    nextOrientation d (nextOrientation d (nextOrientation d (nextOrientation d o))) = o := by
  cases d <;> rcases ho with rfl | rfl | rfl | rfl <;> decide

/-- C7 counterexample: in `fleetBlockedTurn`, rotating ship 0 clockwise
four times does *not* restore its orientation (the first rotation
succeeds, the remaining three are blocked), refuting the claim as a
statement about every ship and fleet. -/
theorem claim_C7_counterexample :
    ¬ (((Ship.rotate boardStd
          (Ship.rotate boardStd
            (Ship.rotate boardStd
              (Ship.rotate boardStd fleetBlockedTurn 0 RotDir.cw).2
              0 RotDir.cw).2
            0 RotDir.cw).2
          0 RotDir.cw).2.getD 0 default).orientation =
        (fleetBlockedTurn.getD 0 default).orientation) := by
  decide

/-- C7 (amended): if each of the four same-direction rotations succeeds,
the ship returns to its original orientation and occupied cell set — in
fact the whole fleet is restored. -/
theorem claim_C7_rotate_four_amended (b : Board) (ships : List Ship) (i : Nat)
    (d : RotDir) (l1 l2 l3 l4 : List Ship) (hi : i < ships.length)
    (ho : legalOrientation (ships.getD i default).orientation)
    (h1 : Ship.rotate b ships i d = (true, l1))
    (h2 : Ship.rotate b l1 i d = (true, l2))
    (h3 : Ship.rotate b l2 i d = (true, l3))
    (h4 : Ship.rotate b l3 i d = (true, l4)) :
    l4 = ships ∧ (l4.getD i default).getCells = (ships.getD i default).getCells := by
  have e1 := rotate_success b ships i d l1 h1
  have e2 := rotate_success_chain b ships i d _ l1 l2 hi e1 h2
  have e3 := rotate_success_chain b ships i d _ l2 l3 hi e2 h3
  have e4 := rotate_success_chain b ships i d _ l3 l4 hi e3 h4
  rcases hS : ships.getD i default with ⟨sx, sy, sl, so, st2, sc, sm, sf⟩
  rw [hS] at e4 ho
  dsimp only at e4 ho
  rw [rotate4 d so ho] at e4
  have : l4 = ships := by
    rw [e4, ← hS, set_getD_self _ _ hi]
  exact ⟨this, by rw [this, hS]⟩

/-- C7 witness fixture: with a single free ship all four clockwise
rotations succeed and restore the fleet. -/
theorem claim_C7_witness :
    (Ship.rotate boardStd fleetFreeTurn 0 RotDir.cw).1 = true ∧
    ((Ship.rotate boardStd
        (Ship.rotate boardStd
          (Ship.rotate boardStd
            (Ship.rotate boardStd fleetFreeTurn 0 RotDir.cw).2
            0 RotDir.cw).2
          0 RotDir.cw).2
        0 RotDir.cw).2 = fleetFreeTurn) :=
  ⟨by decide,
    (claim_C7_rotate_four_amended boardStd fleetFreeTurn 0 RotDir.cw
      (Ship.rotate boardStd fleetFreeTurn 0 RotDir.cw).2
      (Ship.rotate boardStd (Ship.rotate boardStd fleetFreeTurn 0 RotDir.cw).2 0 RotDir.cw).2
      (Ship.rotate boardStd
        (Ship.rotate boardStd (Ship.rotate boardStd fleetFreeTurn 0 RotDir.cw).2 0 RotDir.cw).2
        0 RotDir.cw).2
      (Ship.rotate boardStd
        (Ship.rotate boardStd
          (Ship.rotate boardStd (Ship.rotate boardStd fleetFreeTurn 0 RotDir.cw).2 0 RotDir.cw).2
          0 RotDir.cw).2
        0 RotDir.cw).2
      (by decide) (by decide) (by decide) (by decide) (by decide) (by decide)).1⟩

theorem move_forward_success (b : Board) (ships : List Ship) (i : Nat) (l : List Ship)
    (h : Ship.move b ships i MoveDir.forward = (true, l)) :
    Ship.canOccupy b ships i ((ships.getD i default).getCellsAt
      ((ships.getD i default).x + (directionVector (ships.getD i default).orientation).1)
      ((ships.getD i default).y + (directionVector (ships.getD i default).orientation).2)
      (ships.getD i default).orientation) = true ∧
    l = ships.set i ({ ships.getD i default with
      x := (ships.getD i default).x + (directionVector (ships.getD i default).orientation).1,
      y := (ships.getD i default).y + (directionVector (ships.getD i default).orientation).2 } :
      Ship) := by
  simp only [Ship.move] at h
  split at h
  · simp only [Prod.mk.injEq] at h
    rename_i hc
    exact ⟨hc, h.2.symm⟩
  · simp at h

theorem move_backward_eq (b : Board) (ships : List Ship) (i : Nat) :
    Ship.move b ships i MoveDir.backward =
      (if Ship.canOccupy b ships i ((ships.getD i default).getCellsAt
          ((ships.getD i default).x + -(directionVector (ships.getD i default).orientation).1)
          ((ships.getD i default).y + -(directionVector (ships.getD i default).orientation).2)
          (ships.getD i default).orientation) = true then
        (true, ships.set i ({ ships.getD i default with
          x := (ships.getD i default).x + -(directionVector (ships.getD i default).orientation).1,
          y := (ships.getD i default).y + -(directionVector (ships.getD i default).orientation).2 } :
          Ship))
      else (false, ships)) := by
  simp only [Ship.move]

/-- C8 counterexample: in `fleetOffBoard` the ship's stern starts off the
board, so `move('forward')` succeeds but the immediately following
`move('backward')` fails and the bow is not restored — refuting the
claim as a statement about every ship and fleet. -/
theorem claim_C8_counterexample :
    (Ship.move boardStd fleetOffBoard 0 MoveDir.forward).1 = true ∧
    (Ship.move boardStd (Ship.move boardStd fleetOffBoard 0 MoveDir.forward).2
      0 MoveDir.backward).1 = false ∧
    ((Ship.move boardStd (Ship.move boardStd fleetOffBoard 0 MoveDir.forward).2
      0 MoveDir.backward).2.getD 0 default).x ≠ (fleetOffBoard.getD 0 default).x := by
  decide

/-- C8 (amended): if the ship's original cell set itself passes
`canOccupy` (as it does in any state satisfying the occupancy invariant)
and `move('forward')` succeeds, then the immediately following
`move('backward')` also succeeds and restores the fleet exactly — in
particular the original bow position and occupied cell set. -/
theorem claim_C8_move_round_trip_amended (b : Board) (ships : List Ship) (i : Nat)
    (l1 : List Ship) (hi : i < ships.length)
    (hocc : Ship.canOccupy b ships i ((ships.getD i default).getCells) = true)
    (hf : Ship.move b ships i MoveDir.forward = (true, l1)) :
    (Ship.move b l1 i MoveDir.backward).1 = true ∧
    (Ship.move b l1 i MoveDir.backward).2 = ships := by
  obtain ⟨hc, e1⟩ := move_forward_success b ships i l1 hf
  rcases hS : ships.getD i default with ⟨sx, sy, sl, so, st2, sc, sm, sf⟩
  rw [hS] at e1 hocc
  dsimp only at e1
  rw [move_backward_eq, e1, getD_set_self _ _ _ hi]
  dsimp only
  have hx : sx + (directionVector so).1 + -(directionVector so).1 = sx := by ring
  have hy : sy + (directionVector so).2 + -(directionVector so).2 = sy := by ring
  rw [hx, hy, canOccupy_set_self]
  have hcells :
      Ship.getCellsAt ⟨sx + (directionVector so).1, sy + (directionVector so).2,
        sl, so, st2, sc, sm, sf⟩ sx sy so =
      Ship.getCells ⟨sx, sy, sl, so, st2, sc, sm, sf⟩ := by
    unfold Ship.getCellsAt Ship.getCells Ship.cellAt
    rfl
  rw [hcells, if_pos hocc]
  refine ⟨rfl, ?_⟩
  rw [List.set_set]
  dsimp only
  rw [← hS, set_getD_self _ _ hi]

/-- C8 witness fixture: from open water the forward/backward round trip
succeeds and restores the fleet. -/
theorem claim_C8_witness :
    (Ship.move boardStd (Ship.move boardStd fleetOpenWater 0 MoveDir.forward).2
      0 MoveDir.backward).1 = true ∧
    (Ship.move boardStd (Ship.move boardStd fleetOpenWater 0 MoveDir.forward).2
      0 MoveDir.backward).2 = fleetOpenWater :=
  claim_C8_move_round_trip_amended boardStd fleetOpenWater 0
    (Ship.move boardStd fleetOpenWater 0 MoveDir.forward).2
    (by decide) (by decide) (by decide)

/-! ## Claim C2 -/

theorem sideOffsets_map_eq (s : Ship) (i : Nat) (hi : i < s.length) :
    (if s.orientation = 0 ∨ s.orientation = 180 then
        ([(-1, 0), (1, 0)] : List (Int × Int)) else [(0, -1), (0, 1)]).map
      (fun offset => (⟨(s.getCells.getD i default).x + offset.1,
                      (s.getCells.getD i default).y + offset.2⟩ : Cell)) =
    lateralNeighbors s i := by
  rw [getCells_getD s i hi]
  unfold lateralNeighbors
  by_cases hvert : s.orientation = 0 ∨ s.orientation = 180
  · rw [if_pos hvert, if_pos hvert]
    simp [Cell.mk.injEq] <;> omega
  · rw [if_neg hvert, if_neg hvert]
    simp [Cell.mk.injEq] <;> omega

/-- Membership characterization of the narrow firing zone: exactly the
on-board cells laterally adjacent to a body segment of index between 1
and `min(cannonCapacity, length - 1)`. -/
theorem mem_sideFireZones (b : Board) (s : Ship) (hl : 0 < s.length) (c : Cell) :
    c ∈ Combat.getSideFireZones b s ↔
      b.isValidCell c.x c.y = true ∧
      ∃ i, 1 ≤ i ∧ i ≤ min s.cannonsPerSide (s.length - 1) ∧ c ∈ lateralNeighbors s i := by
  simp only [Combat.getSideFireZones]
  rw [mem_foldl_addCell]
  simp only [List.not_mem_nil, false_or, List.mem_flatMap, List.mem_range, getCells_length]
  constructor
  · rintro ⟨⟨i, hi, hc⟩, hval⟩
    by_cases h0 : i = 0
    · rw [if_pos h0] at hc
      exact absurd hc (List.not_mem_nil c)
    rw [if_neg h0] at hc
    by_cases hgt : i > min s.cannonsPerSide (s.length - 1)
    · rw [if_pos hgt] at hc
      exact absurd hc (List.not_mem_nil c)
    rw [if_neg hgt, sideOffsets_map_eq s i hi] at hc
    exact ⟨hval, i, by omega, by omega, hc⟩
  · rintro ⟨hval, i, h1, h2, hc⟩
    have hi : i < s.length := by omega
    refine ⟨⟨i, hi, ?_⟩, hval⟩
    rw [if_neg (by omega : ¬ i = 0),
      if_neg (by omega : ¬ i > min s.cannonsPerSide (s.length - 1)),
      sideOffsets_map_eq s i hi]
    exact hc

theorem nodup_sideFireZones (b : Board) (s : Ship) :
    (Combat.getSideFireZones b s).Nodup := by
  simp only [Combat.getSideFireZones]
  exact nodup_foldl_addCell b _ [] List.nodup_nil

theorem nodup_getFireZones (b : Board) (s : Ship) (r : Nat) :
    (Ship.getFireZones b s r).Nodup := by
  simp only [Ship.getFireZones]
  exact nodup_foldl_addCell b _ [] List.nodup_nil

/-- The bow's lateral neighbours never coincide with a body segment's
lateral neighbours (segments are displaced along the orientation axis). -/
theorem bow_neighbor_not_segment_neighbor (s : Ship)
    (ho : legalOrientation s.orientation) (c : Cell) (hc : c ∈ lateralNeighbors s 0)
    (i : Nat) (h1 : 1 ≤ i) (hci : c ∈ lateralNeighbors s i) : False := by
  unfold lateralNeighbors at hc hci
  rcases ho with h | h | h | h <;>
  · simp only [h, Ship.cellAt, directionVector] at hc hci
    norm_num at hc hci
    rcases hc with rfl | rfl <;> rcases hci with hci | hci <;>
      simp only [Cell.mk.injEq] at hci <;> omega

/-- C2: `getSideFireZones` returns exactly the deduplicated in-bounds
cells laterally adjacent to body segments of index 1 through
`min(cannonCapacity, length-1)` (±X neighbours for a vertical ship, ±Y
for a horizontal one); the bow's lateral neighbours are never included
and deeper segments contribute nothing.  In particular, the length-3
scenario ship (capacity 2, bow (5,5) facing right) yields the vertical
neighbours of (4,5) and (3,5), and after `takeDamage(1)` only those of
(4,5). -/
theorem claim_C2_side_fire_zones :
    (∀ (b : Board) (s : Ship), legalOrientation s.orientation → 0 < s.length →
      (∀ c : Cell, c ∈ Combat.getSideFireZones b s ↔
        (b.isValidCell c.x c.y = true ∧
          ∃ i, 1 ≤ i ∧ i ≤ min s.cannonsPerSide (s.length - 1) ∧
            c ∈ lateralNeighbors s i)) ∧
      (Combat.getSideFireZones b s).Nodup ∧
      (∀ c ∈ lateralNeighbors s 0, c ∉ Combat.getSideFireZones b s)) ∧
    Combat.getSideFireZones boardStd shipScenario =
      [⟨4, 4⟩, ⟨4, 6⟩, ⟨3, 4⟩, ⟨3, 6⟩] ∧
    Combat.getSideFireZones boardStd (shipScenario.takeDamage 1).2 =
      [⟨4, 4⟩, ⟨4, 6⟩] := by
  refine ⟨?_, by decide, by decide⟩
  intro b s ho hl
  refine ⟨mem_sideFireZones b s hl, nodup_sideFireZones b s, ?_⟩
  intro c hc hmem
  rw [mem_sideFireZones b s hl c] at hmem
  obtain ⟨hval, i, h1, h2, hci⟩ := hmem
  exact bow_neighbor_not_segment_neighbor s ho c hc i h1 hci

/-- C2 witness: the characterization instantiated at the scenario ship
and the cell (4,4). -/
theorem claim_C2_witness :
    (⟨4, 4⟩ : Cell) ∈ Combat.getSideFireZones boardStd shipScenario ↔
      (boardStd.isValidCell 4 4 = true ∧
        ∃ i, 1 ≤ i ∧
          i ≤ min shipScenario.cannonsPerSide (shipScenario.length - 1) ∧
          (⟨4, 4⟩ : Cell) ∈ lateralNeighbors shipScenario i) :=
  ((claim_C2_side_fire_zones.1 boardStd shipScenario (by decide) (by decide)).1 ⟨4, 4⟩)

/-! ## Claim C3 -/

theorem filterMap_map_fst {β : Type} (f : Nat → Option (Nat × β))
    (hf : ∀ j p, f j = some p → p.1 = j) :
    ∀ l : List Nat, (l.filterMap f).map Prod.fst = l.filter fun j => (f j).isSome := by
  intro l
  induction l with
  | nil => rfl
  | cons a l ih =>
      rw [List.filterMap_cons, List.filter_cons]
      cases hfa : f a with
      | none => simp [hfa, ih]
      | some p =>
          simp only [hfa, Option.isSome_some, if_pos]
          rw [List.map_cons, ih, hf a p hfa]

/-- The Boolean target test of `getTargetsInRange` agrees with
`isBroadsideTarget`. -/
theorem targets_map_fst (b : Board) (ships : List Ship) (i : Nat) :
    (Combat.getTargetsInRange b ships i).map Prod.fst =
      (List.range ships.length).filter fun j => decide (isBroadsideTarget b ships i j) := by
  unfold Combat.getTargetsInRange
  rw [filterMap_map_fst]
  · apply List.filter_congr
    intro j hj
    by_cases h1 : j = i
    · simp only [if_pos h1, Option.isSome_none]
      have : ¬ isBroadsideTarget b ships i j := fun hc => hc.1 h1
      simp [this]
    rw [if_neg h1]
    by_cases h2 : (ships.getD j default).team = (ships.getD i default).team
    · simp only [if_pos h2, Option.isSome_none]
      have : ¬ isBroadsideTarget b ships i j := fun hc => hc.2.1 h2
      simp [this]
    rw [if_neg h2]
    by_cases h3 : (ships.getD j default).isAlive = true
    · rw [if_neg (not_not_intro h3)]
      by_cases h4 : ((ships.getD j default).getCells.filter fun c =>
          decide (c ∈ Combat.getSideFireZones b (ships.getD i default))).isEmpty = true
      · simp only [if_pos h4, Option.isSome_none]
        rw [List.isEmpty_iff, List.filter_eq_nil_iff] at h4
        have : ¬ isBroadsideTarget b ships i j := by
          rintro ⟨-, -, -, c, hc1, hc2⟩
          exact h4 c hc1 (by simpa using hc2)
        simp [this]
      · simp only [if_neg h4, Option.isSome_some]
        rw [List.isEmpty_iff] at h4
        have h5 : ∃ c ∈ (ships.getD j default).getCells,
            c ∈ Combat.getSideFireZones b (ships.getD i default) := by
          rcases List.exists_mem_of_ne_nil _ h4 with ⟨c, hc⟩
          rw [List.mem_filter] at hc
          exact ⟨c, hc.1, by simpa using hc.2⟩
        have : isBroadsideTarget b ships i j := ⟨h1, h2, h3, h5⟩
        simp [this]
    · rw [if_pos h3]
      have : ¬ isBroadsideTarget b ships i j := fun hc => h3 hc.2.2.1
      simp [this, Option.isSome_none]
  · intro j p hp
    dsimp only at hp
    split at hp
    · exact absurd hp (by simp)
    split at hp
    · exact absurd hp (by simp)
    split at hp
    · exact absurd hp (by simp)
    split at hp
    · exact absurd hp (by simp)
    · simp only [Option.some.injEq] at hp
      rw [← hp]

/-- Each target entry carries the matched cells of its ship. -/
theorem targets_entries (b : Board) (ships : List Ship) (i : Nat) (p : Nat × List Cell)
    (hp : p ∈ Combat.getTargetsInRange b ships i) :
    p.2 = (ships.getD p.1 default).getCells.filter fun c =>
      decide (c ∈ Combat.getSideFireZones b (ships.getD i default)) := by
  unfold Combat.getTargetsInRange at hp
  rw [List.mem_filterMap] at hp
  obtain ⟨j, hj, hfa⟩ := hp
  dsimp only at hfa
  split at hfa
  · exact absurd hfa (by simp)
  split at hfa
  · exact absurd hfa (by simp)
  split at hfa
  · exact absurd hfa (by simp)
  split at hfa
  · exact absurd hfa (by simp)
  · simp only [Option.some.injEq] at hfa
    rw [← hfa]

theorem broadsideFold_spec :
    ∀ (ts : List (Nat × List Cell)) (acc : List (Nat × Bool)) (cur : List Ship),
      (ts.map Prod.fst).Nodup → (∀ p ∈ ts, p.1 < cur.length) →
      (Combat.broadsideFold ts (acc, cur)).1 =
        acc ++ ts.map (fun p =>
          (p.1, decide ((cur.getD p.1 default).cannonsPerSide - 1 ≤ 0))) ∧
      ∀ k : Nat, (Combat.broadsideFold ts (acc, cur)).2.getD k default =
        if k ∈ ts.map Prod.fst then
          { cur.getD k default with
            cannonsPerSide := (cur.getD k default).cannonsPerSide - 1 }
        else cur.getD k default := by
  intro ts
  induction ts with
  | nil =>
      intro acc cur _ _
      refine ⟨by simp [Combat.broadsideFold], ?_⟩
      intro k
      simp [Combat.broadsideFold]
  | cons t ts ih =>
      intro acc cur hnd hlt
      have hstep : Combat.broadsideFold (t :: ts) (acc, cur) =
          Combat.broadsideFold ts
            (acc ++ [(t.1, decide ((cur.getD t.1 default).cannonsPerSide - 1 ≤ 0))],
             cur.set t.1 { cur.getD t.1 default with
               cannonsPerSide := (cur.getD t.1 default).cannonsPerSide - 1 }) := by
        simp [Combat.broadsideFold, Ship.takeDamage]
      have hnotmem : t.1 ∉ ts.map Prod.fst := (List.nodup_cons.mp (by simpa using hnd)).1
      have hnd' : (ts.map Prod.fst).Nodup := (List.nodup_cons.mp (by simpa using hnd)).2
      have hlt' : ∀ p ∈ ts, p.1 <
          (cur.set t.1 { cur.getD t.1 default with
            cannonsPerSide := (cur.getD t.1 default).cannonsPerSide - 1 }).length := by
        intro p hp
        rw [List.length_set]
        exact hlt p (List.mem_cons_of_mem t hp)
      obtain ⟨ihl, ihr⟩ := ih _ _ hnd' hlt'
      rw [hstep]
      constructor
      · rw [ihl]
        have hmap : ts.map (fun p =>
            (p.1, decide (((cur.set t.1 { cur.getD t.1 default with
              cannonsPerSide := (cur.getD t.1 default).cannonsPerSide - 1 }).getD p.1
                default).cannonsPerSide - 1 ≤ 0))) =
            ts.map (fun p =>
              (p.1, decide ((cur.getD p.1 default).cannonsPerSide - 1 ≤ 0))) := by
          apply List.map_congr_left
          intro p hp
          have hne : t.1 ≠ p.1 := by
            intro he
            exact hnotmem (he ▸ List.mem_map_of_mem Prod.fst hp)
          rw [getD_set_of_ne _ hne]
        rw [hmap, List.map_cons, List.append_assoc, List.singleton_append]
      · intro k
        rw [ihr k]
        by_cases hk : k ∈ ts.map Prod.fst
        · have hkt : t.1 ≠ k := fun he => hnotmem (he ▸ hk)
          rw [if_pos hk, getD_set_of_ne _ hkt,
            if_pos (by simp only [List.map_cons]; exact List.mem_cons_of_mem _ hk)]
        · rw [if_neg hk]
          by_cases hkt : k = t.1
          · subst hkt
            rw [getD_set_self _ _ _ (hlt t (List.mem_cons_self t ts)),
              if_pos (by simp only [List.map_cons]; exact List.mem_cons_self _ _)]
          · rw [getD_set_of_ne _ (fun h => hkt h.symm),
              if_neg (by simp only [List.map_cons, List.mem_cons]; tauto)]

/-- C3: with cannons available, `fireBroadside` damages each living
other-team ship with a cell inside the attacker's narrow fire zones
exactly once (`cannonsPerSide` drops by exactly 1 no matter how many
cells matched), returns one `(ship, destroyed)` entry per such target in
`allShips` order, and leaves every non-targeted ship unchanged. -/
theorem claim_C3_broadside_per_target (b : Board) (ships : List Ship) (i : Nat)
    (h : 0 < (ships.getD i default).cannonsPerSide) :
    ((Combat.fireBroadside b ships i).1 =
      (Combat.getTargetsInRange b ships i).map
        (fun p => (p.1, decide ((ships.getD p.1 default).cannonsPerSide - 1 = 0)))) ∧
    ((Combat.fireBroadside b ships i).1.map Prod.fst =
      (List.range ships.length).filter fun j => decide (isBroadsideTarget b ships i j)) ∧
    (∀ j : Nat, isBroadsideTarget b ships i j →
      (Combat.fireBroadside b ships i).2.getD j default =
        { ships.getD j default with
          cannonsPerSide := (ships.getD j default).cannonsPerSide - 1 }) ∧
    (∀ j : Nat, ¬ isBroadsideTarget b ships i j →
      (Combat.fireBroadside b ships i).2.getD j default = ships.getD j default) := by
  have hfb : Combat.fireBroadside b ships i =
      Combat.broadsideFold (Combat.getTargetsInRange b ships i) ([], ships) := by
    unfold Combat.fireBroadside
    rw [if_neg (by omega)]
  have hnd : ((Combat.getTargetsInRange b ships i).map Prod.fst).Nodup := by
    rw [targets_map_fst]
    exact (List.nodup_range _).filter _
  have hlt : ∀ p ∈ Combat.getTargetsInRange b ships i, p.1 < ships.length := by
    intro p hp
    have : p.1 ∈ (Combat.getTargetsInRange b ships i).map Prod.fst :=
      List.mem_map_of_mem Prod.fst hp
    rw [targets_map_fst, List.mem_filter, List.mem_range] at this
    exact this.1
  obtain ⟨hl, hr⟩ := broadsideFold_spec (Combat.getTargetsInRange b ships i) [] ships hnd hlt
  have hmem : ∀ j : Nat, j ∈ (Combat.getTargetsInRange b ships i).map Prod.fst ↔
      isBroadsideTarget b ships i j := by
    intro j
    rw [targets_map_fst, List.mem_filter, List.mem_range]
    constructor
    · intro hj
      exact of_decide_eq_true hj.2
    · intro hj
      refine ⟨?_, decide_eq_true hj⟩
      by_contra hge
      have hdd : ships.getD j default = default := List.getD_eq_default _ _ (by omega)
      have halive := hj.2.2.1
      rw [hdd] at halive
      exact absurd halive (by decide)
  refine ⟨?_, ?_, ?_, ?_⟩
  · rw [hfb, hl, List.nil_append]
    apply List.map_congr_left
    intro p hp
    simp [Nat.le_zero]
  · rw [hfb, hl, List.nil_append, List.map_map]
    have : (Prod.fst ∘ fun p : Nat × List Cell =>
        (p.1, decide ((ships.getD p.1 default).cannonsPerSide - 1 ≤ 0))) = Prod.fst := by
      funext p
      rfl
    rw [this, targets_map_fst]
  · intro j hj
    rw [hfb, hr j, if_pos ((hmem j).mpr hj)]
  · intro j hj
    rw [hfb, hr j, if_neg (fun hc => hj ((hmem j).mp hc))]

/-- C3 witness: the concrete attacker of `fleetBroadside` has an enemy
with two cells inside its zone; the broadside applies exactly one damage
and reports one destroyed entry. -/
theorem claim_C3_witness :
    (Combat.fireBroadside boardStd fleetBroadside 0).1 =
      (Combat.getTargetsInRange boardStd fleetBroadside 0).map
        (fun p => (p.1, decide ((fleetBroadside.getD p.1 default).cannonsPerSide - 1 = 0))) :=
  (claim_C3_broadside_per_target boardStd fleetBroadside 0 (by decide)).1

/-! ## Claim C5 -/

theorem foldl_add_int {α : Type} (g : α → Int) :
    ∀ (l : List α) (a : Int), l.foldl (fun sc x => sc + g x) a = a + (l.map g).sum := by
  intro l
  induction l with
  | nil => intro a; simp
  | cons x l ih =>
      intro a
      rw [List.foldl_cons, ih, List.map_cons, List.sum_cons]
      ring

theorem foldl_add_if {α : Type} (c : α → Prop) [DecidablePred c] (g : α → Int) :
    ∀ (l : List α) (a : Int),
      l.foldl (fun sc x => if c x then sc + g x else sc) a =
        a + (l.map fun x => if c x then g x else 0).sum := by
  intro l
  induction l with
  | nil => intro a; simp
  | cons x l ih =>
      intro a
      rw [List.foldl_cons, List.map_cons, List.sum_cons]
      by_cases hc : c x
      · rw [if_pos hc, if_pos hc, ih]
        ring
      · rw [if_neg hc, if_neg hc, ih]
        ring

theorem foldl_sub_if {α : Type} (c : α → Prop) [DecidablePred c] (g : α → Int) :
    ∀ (l : List α) (a : Int),
      l.foldl (fun sc x => if c x then sc - g x else sc) a =
        a - (l.map fun x => if c x then g x else 0).sum := by
  intro l
  induction l with
  | nil => intro a; simp
  | cons x l ih =>
      intro a
      rw [List.foldl_cons, List.map_cons, List.sum_cons]
      by_cases hc : c x
      · rw [if_pos hc, if_pos hc, ih]
        ring
      · rw [if_neg hc, if_neg hc, ih]
        ring

theorem foldl_sub_match (zs : List Cell) (c : Cell) :
    ∀ a : Int, zs.foldl (fun sc z => if c.x = z.x ∧ c.y = z.y then sc - 5 else sc) a =
      a - 5 * ((zs.countP fun z => decide (c.x = z.x ∧ c.y = z.y)) : Int) := by
  induction zs with
  | nil => intro a; simp
  | cons z zs ih =>
      intro a
      rw [List.foldl_cons, List.countP_cons]
      by_cases hc : c.x = z.x ∧ c.y = z.y
      · rw [if_pos hc, ih, decide_eq_true hc]
        have h1 : (if (true = true) then (1 : Nat) else 0) = 1 := rfl
        rw [h1]
        push_cast
        ring
      · rw [if_neg hc, ih, decide_eq_false hc]
        simp

theorem foldl_cells_sub (zs : List Cell) :
    ∀ (cs : List Cell) (a : Int),
      cs.foldl (fun sc2 c =>
        zs.foldl (fun sc3 z => if c.x = z.x ∧ c.y = z.y then sc3 - 5 else sc3) sc2) a =
      a - 5 * (cs.map fun c =>
        ((zs.countP fun z => decide (c.x = z.x ∧ c.y = z.y)) : Int)).sum := by
  intro cs
  induction cs with
  | nil => intro a; simp
  | cons c cs ih =>
      intro a
      rw [List.foldl_cons, foldl_sub_match zs c a, ih, List.map_cons, List.sum_cons]
      ring

theorem cell_eq_iff (c z : Cell) : (c.x = z.x ∧ c.y = z.y) ↔ c = z := by
  cases c
  cases z
  simp [Cell.mk.injEq]

theorem countP_indicator (zs : List Cell) (hZ : zs.Nodup) (c : Cell) :
    (zs.countP fun z => decide (c.x = z.x ∧ c.y = z.y)) = if c ∈ zs then 1 else 0 := by
  have hpred : (fun z : Cell => decide (c.x = z.x ∧ c.y = z.y)) =
      fun z : Cell => decide (c = z) := by
    funext z
    rw [decide_eq_decide]
    exact cell_eq_iff c z
  rw [hpred]
  induction zs with
  | nil => simp
  | cons z zs ih =>
      obtain ⟨hz, hzs⟩ := List.nodup_cons.mp hZ
      rw [List.countP_cons]
      by_cases hc : c = z
      · subst hc
        rw [if_pos (List.mem_cons_self c zs)]
        have h0 : zs.countP (fun z => decide (c = z)) = 0 := by
          rw [List.countP_eq_zero]
          intro a ha
          simp only [decide_eq_true_eq]
          intro he
          exact hz (he ▸ ha)
        rw [h0]
        simp
      · have hmc : (c ∈ z :: zs) ↔ c ∈ zs := by
          simp [List.mem_cons, hc]
        rw [ih hzs]
        have : (decide (c = z)) = false := decide_eq_false hc
        rw [this]
        simp only [Bool.false_eq_true, if_false, add_zero]
        by_cases hm : c ∈ zs
        · rw [if_pos hm, if_pos (hmc.mpr hm)]
        · rw [if_neg hm, if_neg (fun hx => hm (hmc.mp hx))]

theorem sum_map_indicator (cs : List Cell) (zs : List Cell) :
    (cs.map fun c => if c ∈ zs then (1 : Int) else 0).sum =
      ((cs.countP fun c => decide (c ∈ zs)) : Int) := by
  induction cs with
  | nil => simp
  | cons c cs ih =>
      rw [List.map_cons, List.sum_cons, List.countP_cons, ih]
      by_cases hm : c ∈ zs
      · rw [if_pos hm, if_pos (by simpa using hm)]
        push_cast
        ring
      · rw [if_neg hm, if_neg (by simpa using hm)]
        push_cast
        ring

/-- The inner AI penalty sum over a ship's cells against one wide zone
equals a per-cell membership count (the zone has no duplicates). -/
theorem cells_zone_sum (b : Board) (s : Ship) (cs : List Cell) (r : Nat) :
    (cs.map fun c => (((Ship.getFireZones b s r).countP
        fun z => decide (c.x = z.x ∧ c.y = z.y)) : Int)).sum =
      ((cs.countP fun c => decide (c ∈ Ship.getFireZones b s r)) : Int) := by
  have hcongr : ∀ c ∈ cs, (((Ship.getFireZones b s r).countP
      fun z => decide (c.x = z.x ∧ c.y = z.y)) : Int) =
      if c ∈ Ship.getFireZones b s r then (1 : Int) else 0 := by
    intro c _
    rw [countP_indicator _ (nodup_getFireZones b s r) c]
    by_cases hm : c ∈ Ship.getFireZones b s r
    · rw [if_pos hm, if_pos hm]
      rfl
    · rw [if_neg hm, if_neg hm]
      rfl
  rw [List.map_congr_left hcongr, sum_map_indicator]

theorem sum_map_filter {α : Type} (p : α → Bool) (g : α → Int) :
    ∀ l : List α, ((l.filter p).map g).sum = (l.map fun x => if p x = true then g x else 0).sum := by
  intro l
  induction l with
  | nil => rfl
  | cons x l ih =>
      rw [List.filter_cons, List.map_cons, List.sum_cons]
      by_cases hp : p x = true
      · rw [if_pos hp, List.map_cons, List.sum_cons, ih, if_pos hp]
      · rw [if_neg hp, ih, if_neg hp, zero_add]

/-- C5 counterexample: in `fleetDoubleThreat` the AI ship's bow cell is
inside both player ships' wide threat zones; the code charges the `-5`
penalty once per (enemy, cell) pair (total score -1), while the claim's
once-per-cell formula yields 4. -/
theorem claim_C5_counterexample :
    AI.evaluatePosition boardStd fleetDoubleThreat 0 [1, 2] = -1 ∧
    evalPositionClaim boardStd fleetDoubleThreat 0 [1, 2] = 4 ∧
    AI.evaluatePosition boardStd fleetDoubleThreat 0 [1, 2] ≠
      evalPositionClaim boardStd fleetDoubleThreat 0 [1, 2] := by
  refine ⟨by decide, by decide, by decide⟩

/-- C5 (amended): `evaluatePosition` equals the pair-counted formula:
`+10` per enemy cell threatened, `-5` per (living player ship, own
occupied cell) pair with the cell inside that ship's wide threat zone,
and `+max(0, 10 - manhattan)` per living player ship. -/
theorem claim_C5_evaluate_position_amended (b : Board) (ships : List Ship) (i : Nat)
    (playerIdx : List Nat) :
    AI.evaluatePosition b ships i playerIdx = evalPositionPairs b ships i playerIdx := by
  unfold AI.evaluatePosition evalPositionPairs
  simp only [foldl_cells_sub]
  rw [foldl_add_int (fun t : Nat × List Cell => (t.2.length : Int) * 10)
    (Combat.getTargetsInRange b ships i) 0]
  rw [foldl_sub_if (fun p : Nat => (ships.getD p default).isAlive = true)
    (fun p => 5 * ((ships.getD i default).getCells.map fun c =>
      (((Ship.getFireZones b (ships.getD p default) 3).countP
        fun z => decide (c.x = z.x ∧ c.y = z.y)) : Int)).sum) playerIdx]
  rw [foldl_add_if (fun p : Nat => (ships.getD p default).isAlive = true)
    (fun p => max 0 (10 - ((((ships.getD i default).x - (ships.getD p default).x).natAbs : Int) +
      (((ships.getD i default).y - (ships.getD p default).y).natAbs : Int)))) playerIdx]
  simp only [cells_zone_sum]
  have hterm1 : ((Combat.getTargetsInRange b ships i).map
      fun t : Nat × List Cell => (t.2.length : Int) * 10).sum =
      10 * (((List.range ships.length).map fun j =>
        if j ≠ i ∧ (ships.getD j default).team ≠ (ships.getD i default).team ∧
            (ships.getD j default).isAlive = true then
          (((ships.getD j default).getCells.countP fun c =>
            decide (c ∈ Combat.getSideFireZones b (ships.getD i default))) : Int)
        else 0).sum) := by
    have hstep1 : ((Combat.getTargetsInRange b ships i).map
        fun t : Nat × List Cell => (t.2.length : Int) * 10) =
        ((Combat.getTargetsInRange b ships i).map
          fun t : Nat × List Cell =>
            10 * (((ships.getD t.1 default).getCells.countP fun c =>
              decide (c ∈ Combat.getSideFireZones b (ships.getD i default))) : Int)) := by
      apply List.map_congr_left
      intro t ht
      rw [targets_entries b ships i t ht, ← List.countP_eq_length_filter]
      ring
    rw [hstep1]
    have hstep2 : ((Combat.getTargetsInRange b ships i).map
        fun t : Nat × List Cell =>
          10 * (((ships.getD t.1 default).getCells.countP fun c =>
            decide (c ∈ Combat.getSideFireZones b (ships.getD i default))) : Int)) =
        (((Combat.getTargetsInRange b ships i).map Prod.fst).map
          fun j : Nat =>
            10 * (((ships.getD j default).getCells.countP fun c =>
              decide (c ∈ Combat.getSideFireZones b (ships.getD i default))) : Int)) := by
      rw [List.map_map]
      rfl
    rw [hstep2, targets_map_fst, sum_map_filter]
    have hpt : ∀ j ∈ List.range ships.length,
        (if decide (isBroadsideTarget b ships i j) = true then
          10 * (((ships.getD j default).getCells.countP fun c =>
            decide (c ∈ Combat.getSideFireZones b (ships.getD i default))) : Int)
        else 0) =
        10 * (if j ≠ i ∧ (ships.getD j default).team ≠ (ships.getD i default).team ∧
            (ships.getD j default).isAlive = true then
          (((ships.getD j default).getCells.countP fun c =>
            decide (c ∈ Combat.getSideFireZones b (ships.getD i default))) : Int)
        else 0) := by
      intro j _
      by_cases hbt : isBroadsideTarget b ships i j
      · rw [if_pos (decide_eq_true hbt), if_pos ⟨hbt.1, hbt.2.1, hbt.2.2.1⟩]
      · rw [if_neg (by simpa using hbt)]
        by_cases h3 : j ≠ i ∧ (ships.getD j default).team ≠ (ships.getD i default).team ∧
            (ships.getD j default).isAlive = true
        · have hcnt : ((ships.getD j default).getCells.countP fun c =>
              decide (c ∈ Combat.getSideFireZones b (ships.getD i default))) = 0 := by
            rw [List.countP_eq_zero]
            intro a ha
            simp only [decide_eq_true_eq]
            intro hz
            exact hbt ⟨h3.1, h3.2.1, h3.2.2, a, ha, hz⟩
          rw [if_pos h3, hcnt]
          simp
        · rw [if_neg h3]
          simp
    rw [List.map_congr_left hpt, List.sum_map_mul_left]
  rw [hterm1]
  have hterm2 : (playerIdx.map fun p =>
      if (ships.getD p default).isAlive = true then
        5 * (((ships.getD i default).getCells.countP fun c =>
          decide (c ∈ Ship.getFireZones b (ships.getD p default) 3)) : Int)
      else 0) =
      (playerIdx.map fun p =>
        5 * (if (ships.getD p default).isAlive = true then
          (((ships.getD i default).getCells.countP fun c =>
            decide (c ∈ Ship.getFireZones b (ships.getD p default) 3)) : Int)
        else 0)) := by
    apply List.map_congr_left
    intro p _
    by_cases hp : (ships.getD p default).isAlive = true
    · rw [if_pos hp, if_pos hp]
    · rw [if_neg hp, if_neg hp, mul_zero]
  rw [hterm2, List.sum_map_mul_left]
  ring

/-! ## Claim C1 -/

theorem getCells_update_xy (s : Ship) (nx ny : Int) :
    ({ s with x := nx, y := ny } : Ship).getCells = s.getCellsAt nx ny s.orientation := by
  unfold Ship.getCells Ship.getCellsAt Ship.cellAt
  rfl

theorem getCells_update_o (s : Ship) (o : Int) :
    ({ s with orientation := o } : Ship).getCells = s.getCellsAt s.x s.y o := by
  unfold Ship.getCells Ship.getCellsAt Ship.cellAt
  rfl

theorem getCells_update_cannons (s : Ship) (n : Nat) :
    ({ s with cannonsPerSide := n } : Ship).getCells = s.getCells := by
  unfold Ship.getCells Ship.cellAt
  rfl

theorem alive_damage (s : Ship) (n : Nat)
    (h : ({ s with cannonsPerSide := s.cannonsPerSide - n } : Ship).isAlive = true) :
    s.isAlive = true := by
  simp only [Ship.isAlive, decide_eq_true_eq] at h ⊢
  omega

/-- Unpacking a successful `canOccupy` check: the cells are on the board
and avoid every other living ship. -/
theorem canOccupy_spec (b : Board) (ships : List Ship) (i : Nat) (cells : List Cell)
    (h : Ship.canOccupy b ships i cells = true) :
    (∀ c ∈ cells, b.isValidCell c.x c.y = true) ∧
    ∀ j, j < ships.length → j ≠ i → (ships.getD j default).isAlive = true →
      ∀ c ∈ cells, c ∉ (ships.getD j default).getCells := by
  unfold Ship.canOccupy at h
  rw [Bool.and_eq_true] at h
  constructor
  · intro c hc
    exact List.all_eq_true.mp h.1 c hc
  · intro j hj hne halive c hc hcmem
    have h1 := List.all_eq_true.mp h.2 j (List.mem_range.mpr hj)
    rw [if_neg hne, if_neg (not_not_intro halive)] at h1
    have h2 := List.all_eq_true.mp h1 c hc
    have h3 := List.all_eq_true.mp h2 c hcmem
    exact of_decide_eq_true h3 ⟨rfl, rfl⟩

/-- Replacing ship `i` by a ship whose cell set passes `canOccupy`
preserves the occupancy invariant. -/
theorem invariant_set (b : Board) (ships : List Ship) (i : Nat) (s' : Ship)
    (hInv : StateInvariant b ships)
    (hocc : Ship.canOccupy b ships i s'.getCells = true) :
    StateInvariant b (ships.set i s') := by
  obtain ⟨hv, hd⟩ := hInv
  obtain ⟨hval, hdisj⟩ := canOccupy_spec b ships i s'.getCells hocc
  constructor
  · intro k hk halive c hc
    rw [List.length_set] at hk
    by_cases hki : k = i
    · subst hki
      rw [getD_set_self _ _ _ hk] at hc
      exact hval c hc
    · rw [getD_set_of_ne _ (fun h => hki h.symm)] at halive hc
      exact hv k hk halive c hc
  · intro k hk l hl hkl halivek halivel c hc
    rw [List.length_set] at hk hl
    by_cases hki : k = i
    · subst hki
      have hli : l ≠ k := Ne.symm hkl
      rw [getD_set_self _ _ _ hk] at hc
      rw [getD_set_of_ne _ (fun h => hli h.symm)] at halivel ⊢
      exact hdisj l hl hli halivel c hc
    · rw [getD_set_of_ne _ (fun h => hki h.symm)] at halivek hc
      by_cases hli : l = i
      · subst hli
        rw [getD_set_self _ _ _ hl] at halivel ⊢
        intro hmem
        exact hdisj k hk hki halivek c hmem hc
      · rw [getD_set_of_ne _ (fun h => hli h.symm)] at halivel ⊢
        exact hd k hk l hl hkl halivek halivel c hc

/-- A move attempt either leaves the fleet alone or replaces the acting
ship by one whose cells passed `canOccupy`. -/
theorem move_dichotomy (b : Board) (ships : List Ship) (i : Nat) (d : MoveDir) :
    (Ship.move b ships i d).2 = ships ∨
    ∃ s' : Ship, (Ship.move b ships i d).2 = ships.set i s' ∧
      Ship.canOccupy b ships i s'.getCells = true := by
  cases d <;>
  · simp only [Ship.move]
    split
    · right
      rename_i hcond
      refine ⟨_, rfl, ?_⟩
      rw [getCells_update_xy]
      exact hcond
    · left
      rfl

/-- A rotation attempt either leaves the fleet alone or replaces the
acting ship by one whose cells passed `canOccupy`. -/
theorem rotate_dichotomy (b : Board) (ships : List Ship) (i : Nat) (d : RotDir) :
    (Ship.rotate b ships i d).2 = ships ∨
    ∃ s' : Ship, (Ship.rotate b ships i d).2 = ships.set i s' ∧
      Ship.canOccupy b ships i s'.getCells = true := by
  simp only [Ship.rotate]
  split
  · right
    rename_i hcond
    refine ⟨_, rfl, ?_⟩
    rw [getCells_update_o]
    exact hcond
  · left
    rfl

/-- Invariance is preserved by any transformation that keeps every
ship's cell set and never revives a ship. -/
theorem invariant_of_geom (b : Board) (ships ships' : List Ship)
    (hlen : ships'.length = ships.length)
    (hgeom : ∀ k : Nat,
      (ships'.getD k default).getCells = (ships.getD k default).getCells ∧
      ((ships'.getD k default).isAlive = true → (ships.getD k default).isAlive = true))
    (hInv : StateInvariant b ships) : StateInvariant b ships' := by
  obtain ⟨hv, hd⟩ := hInv
  constructor
  · intro k hk halive c hc
    rw [hlen] at hk
    rw [(hgeom k).1] at hc
    exact hv k hk ((hgeom k).2 halive) c hc
  · intro k hk l hl hkl hak hal c hc
    rw [hlen] at hk hl
    rw [(hgeom k).1] at hc
    rw [(hgeom l).1]
    exact hd k hk l hl hkl ((hgeom k).2 hak) ((hgeom l).2 hal) c hc

/-- Damaging one ship keeps geometry and never revives. -/
theorem set_damage_geom (ships : List Ship) (j : Nat) (k : Nat) :
    ((ships.set j ((ships.getD j default).takeDamage 1).2).getD k default).getCells =
      (ships.getD k default).getCells ∧
    (((ships.set j ((ships.getD j default).takeDamage 1).2).getD k default).isAlive = true →
      (ships.getD k default).isAlive = true) := by
  by_cases hk : k = j
  · subst hk
    by_cases hlt : k < ships.length
    · rw [getD_set_self _ _ _ hlt]
      simp only [Ship.takeDamage]
      exact ⟨getCells_update_cannons _ _, alive_damage _ _⟩
    · rw [List.set_eq_of_length_le (Nat.le_of_not_lt hlt)]
      exact ⟨rfl, id⟩
  · rw [getD_set_of_ne _ (fun h => hk h.symm)]
    exact ⟨rfl, id⟩

theorem fire_preserves (b : Board) (ships : List Ship) (i : Nat) (c : Cell)
    (hInv : StateInvariant b ships) : StateInvariant b (Combat.fire b ships i c).2 := by
  have hdich : (Combat.fire b ships i c).2 = ships ∨
      ∃ j : Nat, (Combat.fire b ships i c).2 =
        ships.set j ((ships.getD j default).takeDamage 1).2 := by
    simp only [Combat.fire]
    split
    · cases hfind : (List.range ships.length).find? (fun j =>
          decide (j ≠ i ∧ (ships.getD j default).team ≠ (ships.getD i default).team ∧
            (ships.getD j default).isAlive = true ∧
            c ∈ (ships.getD j default).getCells)) with
      | none =>
          left
          rfl
      | some j =>
          right
          exact ⟨j, rfl⟩
    · left
      rfl
  rcases hdich with h | ⟨j, h⟩
  · rw [h]
    exact hInv
  · rw [h]
    refine invariant_of_geom b ships _ (List.length_set _ _ _) ?_ hInv
    intro k
    exact set_damage_geom ships j k

theorem broadsideFold_geom :
    ∀ (ts : List (Nat × List Cell)) (st : List (Nat × Bool) × List Ship),
      (Combat.broadsideFold ts st).2.length = st.2.length ∧
      ∀ k : Nat,
        ((Combat.broadsideFold ts st).2.getD k default).getCells =
          (st.2.getD k default).getCells ∧
        (((Combat.broadsideFold ts st).2.getD k default).isAlive = true →
          (st.2.getD k default).isAlive = true) := by
  intro ts
  induction ts with
  | nil =>
      intro st
      exact ⟨rfl, fun k => ⟨rfl, id⟩⟩
  | cons t ts ih =>
      intro st
      have hstep : Combat.broadsideFold (t :: ts) st =
          Combat.broadsideFold ts
            (st.1 ++ [(t.1, ((st.2.getD t.1 default).takeDamage 1).1)],
             st.2.set t.1 ((st.2.getD t.1 default).takeDamage 1).2) := by
        rfl
      rw [hstep]
      obtain ⟨ihl, ihk⟩ := ih _
      refine ⟨by rw [ihl]; exact List.length_set _ _ _, ?_⟩
      intro k
      obtain ⟨ihc, iha⟩ := ihk k
      obtain ⟨hgc, hga⟩ := set_damage_geom st.2 t.1 k
      exact ⟨by rw [ihc, hgc], fun h => hga (iha h)⟩

theorem broadside_preserves (b : Board) (ships : List Ship) (i : Nat)
    (hInv : StateInvariant b ships) :
    StateInvariant b (Combat.fireBroadside b ships i).2 := by
  unfold Combat.fireBroadside
  split
  · exact hInv
  · obtain ⟨hlen, hgeom⟩ :=
      broadsideFold_geom (Combat.getTargetsInRange b ships i) ([], ships)
    exact invariant_of_geom b ships _ hlen hgeom hInv

/-- C1: every state reachable from a valid initial placement by moves,
rotations, single shots and broadsides keeps the occupancy invariant —
living ships occupy pairwise disjoint, in-bounds cell sets. -/
theorem claim_C1_occupancy_invariant (b : Board) (init s : List Ship)
    (hInv : StateInvariant b init) (hr : ReachableFrom b init s) :
    StateInvariant b s := by
  induction hr with
  | refl => exact hInv
  | @tail mid fin _ hstep ih =>
      cases hstep with
      | move i d =>
          rcases move_dichotomy b mid i d with h | ⟨s', h, hocc⟩
          · rw [h]
            exact ih
          · rw [h]
            exact invariant_set b mid i s' ih hocc
      | rot i d =>
          rcases rotate_dichotomy b mid i d with h | ⟨s', h, hocc⟩
          · rw [h]
            exact ih
          · rw [h]
            exact invariant_set b mid i s' ih hocc
      | shot i c => exact fire_preserves b mid i c ih
      | broadside i => exact broadside_preserves b mid i ih

/-- C1 witness: the concrete valid placement `fleetInitial` satisfies the
invariant, fed through the theorem at the trivial reachability. -/
theorem claim_C1_witness : StateInvariant boardStd fleetInitial :=
  claim_C1_occupancy_invariant boardStd fleetInitial fleetInitial
    (by decide) Relation.ReflTransGen.refl

end MeleeAtSea
